import Mathlib

/-!
Verification of the Cup_Streaming repository against its specification.

Part A embeds the handlers of `src/main.py` (the visible FastAPI shell).
Part B models, from the specification, the TokenManager and
EngagementCounter core that the repository's routes are scaffolding for;
that core's code is not present under `src/`, so the spec text is the
only authority for it.
-/

namespace CupStreaming

/-- A JSON value, the shape of the Python dicts returned by the handlers
in `src/main.py` and of the OpenAPI schema dict. -/
inductive Json where
  | str (s : String)
  | arr (xs : List Json)
  | obj (fields : List (String × Json))

/-- Field lookup in an association list of JSON object fields,
mirroring Python `d[k]` read on a dict (first match; dict keys are unique). -/
def lookupField : List (String × Json) → String → Option Json
  | [], _ => none
  | (k0, v0) :: rest, k => if k0 = k then some v0 else lookupField rest k

/-- `j[k]` on a JSON value: a field read when `j` is an object, otherwise none. -/
def Json.lookup : Json → String → Option Json
  | .obj fields, k => lookupField fields k
  | _, _ => none

/-- Python dict assignment `d[k] = v` on the field list: replaces the value of
an existing key in place, otherwise appends the new pair (insertion order). -/
def updateFields : List (String × Json) → String → Json → List (String × Json)
  | [], k, v => [(k, v)]
  | (k0, v0) :: rest, k, v =>
      if k0 = k then (k0, v) :: rest else (k0, v0) :: updateFields rest k v

/-- `j[k] = v` on a JSON value: succeeds only when `j` is an object
(a Python `TypeError` otherwise). -/
def Json.setKey : Json → String → Json → Option Json
  | .obj fields, k, v => some (.obj (updateFields fields k v))
  | _, _, _ => none

/-- The application state visible to the handlers of `src/main.py`:
whether the database connection succeeded at startup (`lifespan` catches the
failure and lets the app run), the `app.openapi_schema` cache used by
`custom_openapi`, and the schema produced by the external collaborator
`fastapi.openapi.utils.get_openapi` from the app's routes and metadata. -/
structure AppState where
  dbConnected : Bool
  openapi_schema : Option Json
  get_openapi : Json

/-- The `version="1.0.0"` argument of the `FastAPI(...)` constructor call
in `src/main.py`. -/
def appVersion : String := "1.0.0"

/-- Embedding of the `health_check` handler for `GET /health` in
`src/main.py`: returns the literal dict regardless of state. -/
def health_check (_ : AppState) : Json :=
  .obj [("status", .str "healthy")]

/-- Embedding of the `root` handler for `GET /` in `src/main.py`:
returns the literal nested dict regardless of state. -/
def root (_ : AppState) : Json :=
  .obj
    [ ("message", .str "Welcome to Cup Streaming API"),
      ("version", .str "1.0.0"),
      ("documentation", .obj
        [ ("swagger_ui", .str "/docs"),
          ("redoc", .str "/redoc"),
          ("custom_swagger", .str "/static/swagger-ui.html"),
          ("openapi_json", .str "/openapi.json") ]),
      ("endpoints", .obj
        [ ("authentication", .str "/api/v1/auth"),
          ("users", .str "/api/v1/users"),
          ("videos", .str "/api/v1/videos") ]) ]

/-- The `BearerAuth` security-scheme dict written by `custom_openapi`
into `components.securitySchemes` in `src/main.py`. -/
def bearerAuthDetails : Json :=
  .obj
    [ ("type", .str "http"),
      ("scheme", .str "bearer"),
      ("bearerFormat", .str "JWT"),
      ("description", .str "Enter your JWT token in the format: Bearer <token>") ]

/-- The global security requirement list written by `custom_openapi`:
the Python literal on the right-hand side of the assignment
to the security key of the schema. -/
def globalSecurity : Json := .arr [.obj [("BearerAuth", .arr [])]]

/-- Embedding of `custom_openapi` from `src/main.py`.  If `app.openapi_schema`
is set it is returned as is; otherwise the schema obtained from `get_openapi`
is augmented with the `BearerAuth` security scheme and the global security
requirement, cached in `app.openapi_schema`, and returned.  The Python code
reads `openapi_schema["components"]` before assigning into it, so a schema
without a `"components"` object raises (modelled as `none`). -/
def custom_openapi (app : AppState) : Option (Json × AppState) :=
  match app.openapi_schema with
  | some sch => some (sch, app)
  | none =>
    match app.get_openapi.lookup "components" with
    | none => none
    | some comps =>
      match comps.setKey "securitySchemes" (.obj [("BearerAuth", bearerAuthDetails)]) with
      | none => none
      | some comps2 =>
        match app.get_openapi.setKey "components" comps2 with
        | none => none
        | some sch2 =>
          match sch2.setKey "security" globalSecurity with
          | none => none
          | some sch3 => some (sch3, { app with openapi_schema := some sch3 })

/-! ### Part B: the spec-modelled core

The TokenManager and EngagementCounter described by the specification are
not present under `src/`; only their HTTP scaffolding is.  The definitions
below are therefore modelled from the spec's words. -/

/-- Modelled from the spec: timestamps from the external Clock collaborator. -/
abbrev Time := Nat

abbrev TokenID := String

abbrev SubjectID := String

/-- Modelled from the spec: a Session Token record — `tokenID` is the store
key, the record holds `subjectID`, `issuedAt`, `expiresAt` and the
`revoked` flag. -/
structure TokenRecord where
  subjectID : SubjectID
  issuedAt : Time
  expiresAt : Time
  revoked : Bool
  deriving Repr, DecidableEq

/-- Modelled from the spec: the TokenManager's durable state — the token
records keyed by `tokenID`, and the per-subject `minValidIssuedAt`
watermark stamped by `RevokeAll` (0 before any sweep). -/
structure TMState where
  tokens : TokenID → Option TokenRecord
  watermark : SubjectID → Time

/-- The empty store: no tokens, no watermark stamped. -/
def TMState.empty : TMState := ⟨fun _ => none, fun _ => 0⟩

/-- Modelled from the spec: the error taxonomy of `Validate`. -/
inductive TMError where
  | NotFound
  | Expired
  | Revoked
  deriving Repr, DecidableEq

/-- Modelled from the spec: `Issue(subjectID, ttl)` — persists a record with
`expiresAt = now() + ttl` and `revoked = false`.  The cryptographically
random, unique `tokenID` is taken as a parameter; freshness is a hypothesis
where a theorem needs it. -/
def Issue (now : Time) (tokenID : TokenID) (subjectID : SubjectID) (ttl : Nat)
    (s : TMState) : TMState :=
  { s with tokens := fun t =>
      if t = tokenID then some ⟨subjectID, now, now + ttl, false⟩ else s.tokens t }

/-- Modelled from the spec: `Validate(tokenID)` — `NotFound` if absent,
`Expired` if `now() >= expiresAt`, `Revoked` if the flag is set or, per the
`RevokeAll` watermark mechanism, the token was issued before its subject's
`minValidIssuedAt` watermark; otherwise returns `subjectID`. -/
def Validate (now : Time) (tokenID : TokenID) (s : TMState) :
    Except TMError SubjectID :=
  match s.tokens tokenID with
  | none => .error .NotFound
  | some r =>
    if r.expiresAt ≤ now then .error .Expired
    else if r.revoked || r.issuedAt < s.watermark r.subjectID then .error .Revoked
    else .ok r.subjectID

/-- Modelled from the spec: `Revoke(tokenID)` — sets `revoked = true` on the
stored record (the CAS/`Conflict` retry of the spec is a concurrency detail;
sequentially the write lands).  Absent records are left untouched. -/
def Revoke (tokenID : TokenID) (s : TMState) : TMState :=
  { s with tokens := fun t =>
      if t = tokenID then
        match s.tokens t with
        | none => none
        | some r => some { r with revoked := true }
      else s.tokens t }

/-- Modelled from the spec: `RevokeAll(subjectID)` — stamps the subject with
a `minValidIssuedAt` watermark equal to the current time, so tokens issued
before it are treated as revoked without enumerating them. -/
def RevokeAll (now : Time) (subjectID : SubjectID) (s : TMState) : TMState :=
  { s with watermark := fun u => if u = subjectID then now else s.watermark u }

/-- A TokenManager operation (the mutating ones; `Validate` is a pure read). -/
inductive TMOp where
  | issue (tokenID : TokenID) (subjectID : SubjectID) (ttl : Nat)
  | revoke (tokenID : TokenID)
  | revokeAll (subjectID : SubjectID)

/-- One mutating TokenManager call at clock reading `now`. -/
def TMStep (now : Time) : TMOp → TMState → TMState
  | .issue tid sub ttl => Issue now tid sub ttl
  | .revoke tid => Revoke tid
  | .revokeAll sub => RevokeAll now sub

/-- A sequence of timestamped TokenManager calls, applied in order. -/
def TMExec : List (Time × TMOp) → TMState → TMState
  | [], s => s
  | (t, op) :: rest, s => TMExec rest (TMStep t op s)

/-- The per-token state machine of the spec, as observed at clock reading
`now`; the branch order matches `Validate`. -/
inductive TokenStatus where
  | Absent
  | Active
  | Expired
  | Revoked
  deriving Repr, DecidableEq

/-- Status of a token in state `s` at clock reading `now`. -/
def tokenStatus (s : TMState) (now : Time) (tid : TokenID) : TokenStatus :=
  match s.tokens tid with
  | none => .Absent
  | some r =>
    if r.expiresAt ≤ now then .Expired
    else if r.revoked || r.issuedAt < s.watermark r.subjectID then .Revoked
    else .Active

/-- Clock readings along a call sequence are non-decreasing, starting no
earlier than `t` and ending no later than `t'` (the Clock collaborator is
monotonic across the calls). -/
def Chrono : Time → List (Time × TMOp) → Time → Prop
  | t, [], tEnd => t ≤ tEnd
  | t, (u, _) :: rest, tEnd => t ≤ u ∧ Chrono u rest tEnd

/-- Every `issue` in the sequence uses a fresh `tokenID`, absent from the
store at the moment of the call (the spec's unique random identifiers). -/
def FreshIssues : TMState → List (Time × TMOp) → Prop
  | _, [] => True
  | s, (t, op) :: rest =>
    (match op with
     | .issue tid _ _ => s.tokens tid = none
     | _ => True) ∧ FreshIssues (TMStep t op s) rest

abbrev VideoID := String

abbrev ViewerID := String

abbrev UserID := String

/-- Modelled from the spec: the dedup window length (a policy choice the
spec leaves open; 30 minutes is its example). -/
def windowSize : Nat := 1800

/-- Modelled from the spec: `windowKey = floor(now()/windowSize)`. -/
def windowKey (now : Time) : Nat := now / windowSize

/-- Modelled from the spec: the EngagementCounter's durable state — the
per-video View Record count, the dedup markers keyed by
(`videoID`,`viewerID`,`windowKey`), the per-(`videoID`,`userID`) Like
Record, and the per-video aggregate like count. -/
structure ECState where
  viewCount : VideoID → Nat
  marker : VideoID → ViewerID → Nat → Bool
  likeState : VideoID → UserID → Option Bool
  likeCount : VideoID → Nat

/-- The empty store: no views, no markers, no like records. -/
def ECState.empty : ECState := ⟨fun _ => 0, fun _ _ _ => false, fun _ _ => none, fun _ => 0⟩

/-- Modelled from the spec: `RecordView(videoID, viewerID)` — if the dedup
marker for (`videoID`,`viewerID`,`windowKey`) exists, returns the current
count and `wasCounted = false` without touching state; otherwise inserts the
marker, increments the video's count and returns the new count with
`wasCounted = true`. -/
def RecordView (now : Time) (v : VideoID) (u : ViewerID) (s : ECState) :
    ECState × Nat × Bool :=
  let wk := windowKey now
  if s.marker v u wk then (s, s.viewCount v, false)
  else
    ({ s with
        marker := fun v0 u0 w0 =>
          if v0 = v then if u0 = u then if w0 = wk then true else s.marker v0 u0 w0
            else s.marker v0 u0 w0
          else s.marker v0 u0 w0,
        viewCount := fun v0 => if v0 = v then s.viewCount v + 1 else s.viewCount v0 },
     s.viewCount v + 1, true)

/-- Modelled from the spec: `ToggleLike(videoID, userID, like)` — reads the
current Like Record (an absent record reads as not liked); if it already
equals the requested value, returns the current aggregate count unchanged;
otherwise writes the new state and adjusts the aggregate by one. -/
def ToggleLike (v : VideoID) (u : UserID) (like : Bool) (s : ECState) :
    ECState × Nat :=
  let cur := (s.likeState v u).getD false
  if cur = like then (s, s.likeCount v)
  else
    let newCount := if like then s.likeCount v + 1 else s.likeCount v - 1
    ({ s with
        likeState := fun v0 u0 =>
          if v0 = v then if u0 = u then some like else s.likeState v0 u0
          else s.likeState v0 u0,
        likeCount := fun v0 => if v0 = v then newCount else s.likeCount v0 },
     newCount)

/-- Modelled from the spec: `GetCounts(videoID)` — a pure, total read of the
two aggregates; an unknown video reads its zero defaults. -/
def GetCounts (v : VideoID) (s : ECState) : Nat × Nat :=
  (s.viewCount v, s.likeCount v)

/-- An EngagementCounter call. -/
inductive ECOp where
  | recordView (v : VideoID) (u : ViewerID)
  | toggleLike (v : VideoID) (u : UserID) (like : Bool)
  | getCounts (v : VideoID)

/-- The state after one EngagementCounter call at clock reading `now`
(`getCounts` is a pure read and leaves the state as is). -/
def ECStep (now : Time) : ECOp → ECState → ECState
  | .recordView v u => fun s => (RecordView now v u s).1
  | .toggleLike v u like => fun s => (ToggleLike v u like s).1
  | .getCounts _ => fun s => s

/-- A sequence of timestamped EngagementCounter calls, applied in order. -/
def ECExec : List (Time × ECOp) → ECState → ECState
  | [], s => s
  | (t, op) :: rest, s => ECExec rest (ECStep t op s)

/-- The state after a batch of `RecordView` calls on video `v`, one per
(`viewerID`, clock reading) pair, applied in the given order. -/
def runViews (v : VideoID) (calls : List (ViewerID × Time)) (s : ECState) : ECState :=
  match calls with
  | [] => s
  | (u, t) :: rest => runViews v rest (RecordView t v u s).1

/-! ### Lemmas about JSON field update -/

theorem lookupField_updateFields_self (fs : List (String × Json)) (k : String) (v : Json) :
    lookupField (updateFields fs k v) k = some v := by
  induction fs with
  | nil => simp [updateFields, lookupField]
  | cons p rest ih =>
    obtain ⟨k0, v0⟩ := p
    by_cases h : k0 = k
    · simp [updateFields, lookupField, h]
    · simp [updateFields, lookupField, h, ih]

theorem lookupField_updateFields_ne (fs : List (String × Json)) (k k2 : String) (v : Json)
    (h : k2 ≠ k) : lookupField (updateFields fs k v) k2 = lookupField fs k2 := by
  induction fs with
  | nil => simp [updateFields, lookupField, Ne.symm h]
  | cons p rest ih =>
    obtain ⟨k0, v0⟩ := p
    by_cases h0 : k0 = k
    · subst h0
      simp [updateFields, lookupField, Ne.symm h]
    · simp [updateFields, lookupField, h0, ih]

theorem Json.setKey_lookup_self {j j2 : Json} {k : String} {v : Json}
    (h : j.setKey k v = some j2) : j2.lookup k = some v := by
  cases j with
  | str s => simp [Json.setKey] at h
  | arr xs => simp [Json.setKey] at h
  | obj fs =>
    simp only [Json.setKey, Option.some.injEq] at h
    subst h
    simp [Json.lookup, lookupField_updateFields_self]

theorem Json.setKey_lookup_ne {j j2 : Json} {k k2 : String} {v : Json}
    (h : j.setKey k v = some j2) (hne : k2 ≠ k) : j2.lookup k2 = j.lookup k2 := by
  cases j with
  | str s => simp [Json.setKey] at h
  | arr xs => simp [Json.setKey] at h
  | obj fs =>
    simp only [Json.setKey, Option.some.injEq] at h
    subst h
    simp [Json.lookup, lookupField_updateFields_ne _ _ _ _ hne]

/-! ### Claims about the handlers of src/main.py -/

/-- C8: the `health_check` handler for `GET /health` is a constant function:
every invocation, whatever the application state (in particular whether the
database connection succeeded at startup), returns exactly
the object with status healthy. -/
theorem health_check_constant (s s2 : AppState) :
    health_check s = health_check s2 ∧
    health_check s = Json.obj [("status", Json.str "healthy")] :=
  ⟨rfl, rfl⟩

/-- C9: the `root` handler for `GET /` is a constant function whose
returned object's version field is the string "1.0.0", the same version
string the FastAPI app is constructed with. -/
theorem root_version_constant (s s2 : AppState) :
    root s = root s2 ∧
    (root s).lookup "version" = some (Json.str appVersion) ∧
    appVersion = "1.0.0" :=
  ⟨rfl, rfl, rfl⟩

/-- C10: `custom_openapi` is idempotent via caching: starting from an app
whose `openapi_schema` cache is unset, a successful first call stores the
schema it returns in the cache, a second call returns that same cached
schema with the state unchanged, and the returned schema contains the
`BearerAuth` scheme under `components.securitySchemes` and the global
security requirement. -/
theorem custom_openapi_caches (app : AppState) (sch : Json) (app2 : AppState)
    (h0 : app.openapi_schema = none)
    (h1 : custom_openapi app = some (sch, app2)) :
    app2.openapi_schema = some sch ∧
    custom_openapi app2 = some (sch, app2) ∧
    (∃ comps ss, sch.lookup "components" = some comps ∧
      comps.lookup "securitySchemes" = some ss ∧
      ss.lookup "BearerAuth" = some bearerAuthDetails) ∧
    sch.lookup "security" = some globalSecurity := by
  cases hc : Json.lookup app.get_openapi "components" with
  | none => simp [custom_openapi, h0, hc] at h1
  | some comps =>
    cases hc2 : Json.setKey comps "securitySchemes"
        (.obj [("BearerAuth", bearerAuthDetails)]) with
    | none => simp [custom_openapi, h0, hc, hc2] at h1
    | some comps2 =>
      cases hs2 : Json.setKey app.get_openapi "components" comps2 with
      | none => simp [custom_openapi, h0, hc, hc2, hs2] at h1
      | some sch2 =>
        cases hs3 : Json.setKey sch2 "security" globalSecurity with
        | none => simp [custom_openapi, h0, hc, hc2, hs2, hs3] at h1
        | some sch3 =>
          simp only [custom_openapi, h0, hc, hc2, hs2, hs3,
            Option.some.injEq, Prod.mk.injEq] at h1
          obtain ⟨hsch, happ⟩ := h1
          subst hsch
          refine ⟨?_, ?_, ?_, ?_⟩
          · rw [← happ]
          · rw [← happ]
            rfl
          · refine ⟨comps2, Json.obj [("BearerAuth", bearerAuthDetails)], ?_, ?_, ?_⟩
            · rw [Json.setKey_lookup_ne hs3 (by decide),
                Json.setKey_lookup_self hs2]
            · exact Json.setKey_lookup_self hc2
            · simp [Json.lookup, lookupField]
          · exact Json.setKey_lookup_self hs3

/-- Example application state for exercising `custom_openapi`: the cache is
unset and `get_openapi` produced a minimal schema with a components object. -/
def exApp : AppState :=
  ⟨true, none, .obj [("openapi", .str "3.0.2"), ("components", .obj []), ("paths", .obj [])]⟩

/-- The schema `custom_openapi` produces from `exApp`. -/
def exSch : Json :=
  .obj
    [ ("openapi", .str "3.0.2"),
      ("components", .obj [("securitySchemes", .obj [("BearerAuth", bearerAuthDetails)])]),
      ("paths", .obj []),
      ("security", globalSecurity) ]

/-- The application state after the first `custom_openapi` call on `exApp`. -/
def exApp2 : AppState := { exApp with openapi_schema := some exSch }

/-- Witness for C10 at the concrete state `exApp`. -/
theorem custom_openapi_caches_witness :
    exApp2.openapi_schema = some exSch ∧
    custom_openapi exApp2 = some (exSch, exApp2) ∧
    (∃ comps ss, exSch.lookup "components" = some comps ∧
      comps.lookup "securitySchemes" = some ss ∧
      ss.lookup "BearerAuth" = some bearerAuthDetails) ∧
    exSch.lookup "security" = some globalSecurity :=
  custom_openapi_caches exApp exSch exApp2 rfl rfl

/-! ### Claims about the TokenManager -/

/-- A store reached by issuing token t1 for subject u1 with ttl 100 at time
0 and then sweeping u1 with `RevokeAll` at time 5, which stamps the
watermark without touching the record's `revoked` flag. -/
def c1State : TMState :=
  TMExec [(0, .issue "t1" "u1" 100), (5, .revokeAll "u1")] TMState.empty

/-- Counterexample to C1 as stated: in the reachable store `c1State` the
record for t1 exists with `revoked = false` and `now = 6 < expiresAt =
100`, yet `Validate` does not return the subject — it fails with `Revoked`
because the token was issued before the `RevokeAll` watermark. -/
theorem validate_claim_counterexample :
    c1State.tokens "t1" = some ⟨"u1", 0, 100, false⟩ ∧
    (6 : Time) < 100 ∧
    Validate 6 "t1" c1State = .error .Revoked ∧
    ¬ Validate 6 "t1" c1State = .ok "u1" :=
  ⟨rfl, by decide, rfl, fun h => Except.noConfusion h⟩

/-- C1 (amended): `Validate` returns the token's `subjectID` iff the record
exists, `revoked` is false, the token was not issued before its subject's
`RevokeAll` watermark, and `now < expiresAt`; it fails with `NotFound`
exactly when the record is absent, with `Expired` when `now >= expiresAt`,
and with `Revoked` when the flag is set or the watermark covers the token;
and a token issued with `ttl = 0` is immediately `Expired` on `Validate`. -/
theorem validate_characterization (s : TMState) (now : Time) (tid : TokenID) :
    (∀ sub : SubjectID, Validate now tid s = .ok sub ↔
      ∃ r : TokenRecord, s.tokens tid = some r ∧ r.subjectID = sub ∧
        r.revoked = false ∧ s.watermark r.subjectID ≤ r.issuedAt ∧
        now < r.expiresAt) ∧
    (Validate now tid s = .error .NotFound ↔ s.tokens tid = none) ∧
    (∀ r : TokenRecord, s.tokens tid = some r → r.expiresAt ≤ now →
      Validate now tid s = .error .Expired) ∧
    (∀ r : TokenRecord, s.tokens tid = some r → now < r.expiresAt →
      (r.revoked = true ∨ r.issuedAt < s.watermark r.subjectID) →
      Validate now tid s = .error .Revoked) ∧
    (∀ (tid2 : TokenID) (sub : SubjectID) (later : Time), now ≤ later →
      Validate later tid2 (Issue now tid2 sub 0 s) = .error .Expired) := by
  refine ⟨?_, ?_, ?_, ?_, ?_⟩
  · intro sub
    constructor
    · intro h
      cases hr : s.tokens tid with
      | none => simp [Validate, hr] at h
      | some r =>
        refine ⟨r, rfl, ?_⟩
        by_cases he : r.expiresAt ≤ now
        · simp [Validate, hr, he] at h
        · by_cases hv : r.revoked = true ∨ r.issuedAt < s.watermark r.subjectID
          · rcases hv with hv | hv <;> simp [Validate, hr, he, hv] at h
          · push_neg at hv
            obtain ⟨hrev, hwm⟩ := hv
            have hrev2 : r.revoked = false := by simpa using hrev
            have hok : r.subjectID = sub := by
              simpa [Validate, hr, he, hrev2, Nat.not_lt.mpr hwm] using h
            exact ⟨hok, hrev2, hwm, Nat.not_le.mp he⟩
    · rintro ⟨r, hr, hsub, hrev, hwm, hexp⟩
      subst hsub
      simp [Validate, hr, hrev, Nat.not_le.mpr hexp, Nat.not_lt.mpr hwm]
  · cases hr : s.tokens tid with
    | none => simp [Validate, hr]
    | some r =>
      simp only [Validate, hr]
      constructor
      · intro h
        by_cases he : r.expiresAt ≤ now
        · simp [he] at h
        · by_cases hv : r.revoked || decide (r.issuedAt < s.watermark r.subjectID)
          · simp [he, hv] at h
          · simp [he, hv] at h
      · intro h
        exact Option.noConfusion h
  · intro r hr he
    simp [Validate, hr, he]
  · intro r hr hexp hv
    have he : ¬ r.expiresAt ≤ now := Nat.not_le.mpr hexp
    rcases hv with hv | hv <;> simp [Validate, hr, he, hv]
  · intro tid2 sub later hle
    have hrec : (Issue now tid2 sub 0 s).tokens tid2 =
        some ⟨sub, now, now + 0, false⟩ := by
      simp [Issue]
    simp [Validate, hrec, hle]

/-- Witness for C1 (amended) at concrete stores: a fresh token validates to
its subject, an absent token is `NotFound`, a flag-revoked token is
`Revoked`, and a ttl-0 token is `Expired`. -/
theorem validate_characterization_witness :
    Validate 10 "t1" (Issue 0 "t1" "u1" 3600 TMState.empty) = .ok "u1" ∧
    Validate 10 "t2" (Issue 0 "t1" "u1" 3600 TMState.empty) = .error .NotFound ∧
    Validate 10 "t1" (Revoke "t1" (Issue 0 "t1" "u1" 3600 TMState.empty)) =
      .error .Revoked ∧
    Validate 5 "t0" (Issue 3 "t0" "u0" 0 TMState.empty) = .error .Expired := by
  refine ⟨?_, ?_, ?_, ?_⟩
  · exact (validate_characterization (Issue 0 "t1" "u1" 3600 TMState.empty)
      10 "t1").1 "u1" |>.mpr ⟨⟨"u1", 0, 3600, false⟩, rfl, rfl, rfl, by decide, by decide⟩
  · exact (validate_characterization (Issue 0 "t1" "u1" 3600 TMState.empty)
      10 "t2").2.1.mpr rfl
  · exact (validate_characterization
      (Revoke "t1" (Issue 0 "t1" "u1" 3600 TMState.empty)) 10 "t1").2.2.2.1
      ⟨"u1", 0, 3600, true⟩ rfl (by decide) (Or.inl rfl)
  · exact (validate_characterization TMState.empty 3 "x").2.2.2.2 "t0" "u0" 5 (by decide)

/-- A token is in a dead state: `Expired` or `Revoked`. -/
abbrev Bad (s : TMState) (t : Time) (tid : TokenID) : Prop :=
  tokenStatus s t tid = .Expired ∨ tokenStatus s t tid = .Revoked

/-- `Validate` succeeds exactly on tokens observed `Active`. -/
theorem validate_ok_iff_active (s : TMState) (now : Time) (tid : TokenID) :
    (∃ sub, Validate now tid s = .ok sub) ↔ tokenStatus s now tid = .Active := by
  cases hr : s.tokens tid with
  | none => simp [Validate, tokenStatus, hr]
  | some r =>
    by_cases he : r.expiresAt ≤ now
    · simp [Validate, tokenStatus, hr, he]
    · by_cases hv : (r.revoked || decide (r.issuedAt < s.watermark r.subjectID)) = true
      · simp [Validate, tokenStatus, hr, he, hv]
      · simp [Validate, tokenStatus, hr, he, hv]

/-- A dead state stays dead as the clock advances: the deadline is in the
record and the revocation conditions do not depend on the clock. -/
theorem bad_mono_time (s : TMState) (t t2 : Time) (tid : TokenID) (ht : t ≤ t2)
    (hbad : Bad s t tid) : Bad s t2 tid := by
  cases hr : s.tokens tid with
  | none => rcases hbad with hb | hb <;> simp [tokenStatus, hr] at hb
  | some r =>
    by_cases he2 : r.expiresAt ≤ t2
    · exact Or.inl (by simp [tokenStatus, hr, he2])
    · have he : ¬ r.expiresAt ≤ t := fun hc => he2 (Nat.le_trans hc ht)
      have hv : (r.revoked || decide (r.issuedAt < s.watermark r.subjectID)) = true := by
        by_contra hc
        rcases hbad with hb | hb <;> simp [tokenStatus, hr, he, hc] at hb
      exact Or.inr (by simp [tokenStatus, hr, he2, hv])

/-- One mutating call keeps a dead token dead, provided the clock has not
run backwards (the state's watermarks were stamped no later than `t`, the
call happens at `u ≥ t`) and an `issue` never reuses a stored id. -/
theorem bad_step (s : TMState) (t u : Time) (tid : TokenID) (op : TMOp)
    (hwm : ∀ sub, s.watermark sub ≤ t)
    (hfresh : match op with | .issue tid2 _ _ => s.tokens tid2 = none | _ => True)
    (htu : t ≤ u)
    (hbad : Bad s t tid) :
    Bad (TMStep u op s) u tid ∧ ∀ sub, (TMStep u op s).watermark sub ≤ u := by
  have hbadu : Bad s u tid := bad_mono_time s t u tid htu hbad
  cases hr : s.tokens tid with
  | none => rcases hbad with hb | hb <;> simp [tokenStatus, hr] at hb
  | some r =>
    cases op with
    | issue tid2 sub2 ttl =>
      have hf : s.tokens tid2 = none := hfresh
      have hne : ¬ tid = tid2 := fun hcontra => by
        rw [hcontra, hf] at hr; exact Option.noConfusion hr
      have hst : tokenStatus (TMStep u (TMOp.issue tid2 sub2 ttl) s) u tid
          = tokenStatus s u tid := by
        simp [tokenStatus, TMStep, Issue, hne]
      refine ⟨?_, fun sub => Nat.le_trans (hwm sub) htu⟩
      rw [Bad, hst]
      exact hbadu
    | revoke tid2 =>
      refine ⟨?_, fun sub => Nat.le_trans (hwm sub) htu⟩
      by_cases hne : tid = tid2
      · subst hne
        by_cases he : r.expiresAt ≤ u
        · exact Or.inl (by simp [tokenStatus, TMStep, Revoke, hr, he])
        · exact Or.inr (by simp [tokenStatus, TMStep, Revoke, hr, he])
      · have hst : tokenStatus (TMStep u (TMOp.revoke tid2) s) u tid
            = tokenStatus s u tid := by
          simp [tokenStatus, TMStep, Revoke, hne]
        rw [Bad, hst]
        exact hbadu
    | revokeAll sub2 =>
      constructor
      · by_cases he : r.expiresAt ≤ u
        · exact Or.inl (by simp [tokenStatus, TMStep, RevokeAll, hr, he])
        · have hv : (r.revoked || decide (r.issuedAt < s.watermark r.subjectID)) = true := by
            by_contra hc
            rcases hbadu with hb | hb <;> simp [tokenStatus, hr, he, hc] at hb
          have htok : (RevokeAll u sub2 s).tokens tid = some r := hr
          have hlt : r.revoked = true ∨
              r.issuedAt < (RevokeAll u sub2 s).watermark r.subjectID := by
            rcases (by simpa using hv :
                r.revoked = true ∨ r.issuedAt < s.watermark r.subjectID) with h1 | h1
            · exact Or.inl h1
            · right
              have h2 : r.issuedAt < s.watermark r.subjectID := h1
              by_cases hs2 : r.subjectID = sub2
              · have h3 : (RevokeAll u sub2 s).watermark r.subjectID = u := by
                  simp [RevokeAll, hs2]
                rw [h3]
                exact Nat.lt_of_lt_of_le h2 (Nat.le_trans (hwm r.subjectID) htu)
              · have h3 : (RevokeAll u sub2 s).watermark r.subjectID
                    = s.watermark r.subjectID := by
                  simp [RevokeAll, hs2]
                rw [h3]
                exact h2
          rcases hlt with h1 | h1
          · exact Or.inr (by simp [tokenStatus, TMStep, htok, he, h1])
          · exact Or.inr (by simp [tokenStatus, TMStep, htok, he, h1])
      · intro sub
        by_cases hs2 : sub = sub2
        · simp [TMStep, RevokeAll, hs2]
        · have h3 : (TMStep u (TMOp.revokeAll sub2) s).watermark sub
              = s.watermark sub := by
            simp [TMStep, RevokeAll, hs2]
          rw [h3]
          exact Nat.le_trans (hwm sub) htu

/-- A dead token stays dead under any chronological, fresh-issue call
sequence. -/
theorem tmexec_bad (ops : List (Time × TMOp)) (s : TMState) (t tEnd : Time)
    (tid : TokenID)
    (hwm : ∀ sub, s.watermark sub ≤ t)
    (hchron : Chrono t ops tEnd)
    (hfresh : FreshIssues s ops)
    (hbad : Bad s t tid) : Bad (TMExec ops s) tEnd tid := by
  induction ops generalizing s t with
  | nil => exact bad_mono_time s t tEnd tid hchron hbad
  | cons p rest ih =>
    obtain ⟨u, op⟩ := p
    obtain ⟨htu, hch⟩ := hchron
    obtain ⟨hf, hfr⟩ := hfresh
    obtain ⟨hb2, hw2⟩ := bad_step s t u tid op hwm hf htu hbad
    exact ih (TMStep u op s) u hw2 hch hfr hb2

/-- C5: the per-token state machine is irreversible — a token observed
`Expired` or `Revoked` at time `t` is never observed `Active` again after
any chronological sequence of `Issue`/`Revoke`/`RevokeAll` calls (issues
using fresh ids), and in particular it never validates again, whatever
happens to the `RevokeAll` watermarks along the way. -/
theorem token_states_irreversible (s : TMState) (t tEnd : Time) (tid : TokenID)
    (ops : List (Time × TMOp))
    (hwm : ∀ sub, s.watermark sub ≤ t)
    (hchron : Chrono t ops tEnd)
    (hfresh : FreshIssues s ops)
    (hbad : tokenStatus s t tid = .Expired ∨ tokenStatus s t tid = .Revoked) :
    tokenStatus (TMExec ops s) tEnd tid ≠ .Active ∧
    ∀ sub, ¬ Validate tEnd tid (TMExec ops s) = .ok sub := by
  have hb : Bad (TMExec ops s) tEnd tid :=
    tmexec_bad ops s t tEnd tid hwm hchron hfresh hbad
  constructor
  · intro hc
    rcases hb with hb | hb <;> rw [hc] at hb <;> exact TokenStatus.noConfusion hb
  · intro sub hc
    have hact : tokenStatus (TMExec ops s) tEnd tid = .Active :=
      (validate_ok_iff_active (TMExec ops s) tEnd tid).mp ⟨sub, hc⟩
    rcases hb with hb | hb <;> rw [hact] at hb <;> exact TokenStatus.noConfusion hb

/-- A store holding the flag-revoked token t1 for subject u1. -/
def c5Start : TMState := Revoke "t1" (Issue 0 "t1" "u1" 3600 TMState.empty)

/-- A later `RevokeAll` sweep, moving u1's watermark. -/
def c5Ops : List (Time × TMOp) := [(5, .revokeAll "u1")]

/-- Witness for C5: the concrete revoked token t1 stays non-`Active` and
never validates across a later watermark change. -/
theorem token_states_irreversible_witness :
    tokenStatus (TMExec c5Ops c5Start) 6 "t1" ≠ .Active ∧
    ∀ sub, ¬ Validate 6 "t1" (TMExec c5Ops c5Start) = .ok sub :=
  token_states_irreversible c5Start 1 6 "t1" c5Ops (fun _ => Nat.zero_le 1)
    ⟨(by decide : (1 : Nat) ≤ 5), (by decide : (5 : Nat) ≤ 6)⟩
    ⟨trivial, trivial⟩ (Or.inr rfl)

/-! ### Claims about the EngagementCounter -/

/-- C2: repeating `RecordView(v,u)` within the same dedup window is an
idempotent no-op — the second call returns `wasCounted = false`, the same
count as the first call, and leaves the state untouched; a first call whose
dedup marker is absent counts and increments; and the spec's concrete
scenario holds from the empty store. -/
theorem recordView_idempotent :
    (∀ (s : ECState) (v : VideoID) (u : ViewerID) (n1 n2 : Time),
      windowKey n2 = windowKey n1 →
      (RecordView n2 v u (RecordView n1 v u s).1).2.2 = false ∧
      (RecordView n2 v u (RecordView n1 v u s).1).2.1 = (RecordView n1 v u s).2.1 ∧
      (RecordView n2 v u (RecordView n1 v u s).1).1 = (RecordView n1 v u s).1) ∧
    (∀ (s : ECState) (v : VideoID) (u : ViewerID) (n : Time),
      s.marker v u (windowKey n) = false →
      (RecordView n v u s).2.1 = s.viewCount v + 1 ∧
      (RecordView n v u s).2.2 = true) ∧
    ((RecordView 0 "vid1" "viewerA" ECState.empty).2 = (1, true) ∧
     (RecordView 0 "vid1" "viewerA"
       (RecordView 0 "vid1" "viewerA" ECState.empty).1).2 = (1, false) ∧
     (RecordView 0 "vid1" "viewerB"
       (RecordView 0 "vid1" "viewerA"
         (RecordView 0 "vid1" "viewerA" ECState.empty).1).1).2 = (2, true)) := by
  refine ⟨?_, ?_, by decide, by decide, by decide⟩
  · intro s v u n1 n2 h
    by_cases hm : s.marker v u (windowKey n1) = true
    · simp [RecordView, hm, h]
    · simp [RecordView, hm, h]
  · intro s v u n hm
    simp [RecordView, hm]

/-- Witness for C2 at a concrete store, window and viewers. -/
theorem recordView_idempotent_witness :
    windowKey 7 = windowKey 3 ∧
    ((RecordView 7 "vid1" "a" (RecordView 3 "vid1" "a" ECState.empty).1).2.2 = false ∧
     (RecordView 7 "vid1" "a" (RecordView 3 "vid1" "a" ECState.empty).1).2.1 =
       (RecordView 3 "vid1" "a" ECState.empty).2.1 ∧
     (RecordView 7 "vid1" "a" (RecordView 3 "vid1" "a" ECState.empty).1).1 =
       (RecordView 3 "vid1" "a" ECState.empty).1) ∧
    ((RecordView 3 "vid1" "a" ECState.empty).2.1 =
       ECState.empty.viewCount "vid1" + 1 ∧
     (RecordView 3 "vid1" "a" ECState.empty).2.2 = true) :=
  ⟨rfl, recordView_idempotent.1 ECState.empty "vid1" "a" 3 7 rfl,
    recordView_idempotent.2.1 ECState.empty "vid1" "a" 3 rfl⟩

/-- C4: when the stored Like Record already equals the requested value,
`ToggleLike` returns the current aggregate count and leaves the state
untouched (a success, not an error — the return type carries no error); in
particular calling `ToggleLike(v,u,true)` twice in a row makes the second
call return exactly the first call's state and count. -/
theorem toggleLike_idempotent (s : ECState) (v : VideoID) (u : UserID) :
    ToggleLike v u true (ToggleLike v u true s).1
      = ((ToggleLike v u true s).1, (ToggleLike v u true s).2) ∧
    (∀ (s2 : ECState) (v2 : VideoID) (u2 : UserID) (like : Bool),
      s2.likeState v2 u2 = some like →
      ToggleLike v2 u2 like s2 = (s2, s2.likeCount v2)) := by
  constructor
  · by_cases h : (s.likeState v u).getD false = true
    · simp [ToggleLike, h]
    · simp [ToggleLike, h]
  · intro s2 v2 u2 like h
    simp [ToggleLike, h]

/-- Example store in which user u1 already likes video v1. -/
def exLiked : ECState :=
  { ECState.empty with
      likeState := fun v0 u0 =>
        if v0 = "v1" then if u0 = "u1" then some true else none else none,
      likeCount := fun v0 => if v0 = "v1" then 1 else 0 }

/-- Witness for C4: liking the already-liked (v1,u1) is a no-op. -/
theorem toggleLike_idempotent_witness :
    exLiked.likeState "v1" "u1" = some true ∧
    ToggleLike "v1" "u1" true exLiked = (exLiked, exLiked.likeCount "v1") :=
  ⟨rfl, (toggleLike_idempotent ECState.empty "v1" "u1").2 exLiked "v1" "u1" true rfl⟩

/-- A single EngagementCounter call never decreases any video's view count. -/
theorem viewCount_step_mono (now : Time) (op : ECOp) (s : ECState) (v : VideoID) :
    s.viewCount v ≤ (ECStep now op s).viewCount v := by
  cases op with
  | recordView v2 u2 =>
    by_cases hm : s.marker v2 u2 (windowKey now) = true
    · simp [ECStep, RecordView, hm]
    · by_cases hv : v = v2
      · subst hv
        simp [ECStep, RecordView, hm]
      · simp [ECStep, RecordView, hm, hv]
  | toggleLike v2 u2 like =>
    by_cases h : (s.likeState v2 u2).getD false = like
    · simp [ECStep, ToggleLike, h]
    · simp [ECStep, ToggleLike, h]
  | getCounts v2 => exact Nat.le_refl _

/-- C6: `GetCounts(v).viewCount` is monotonically non-decreasing across any
sequence of EngagementCounter operations. -/
theorem viewCount_monotone (ops : List (Time × ECOp)) (s : ECState) (v : VideoID) :
    (GetCounts v s).1 ≤ (GetCounts v (ECExec ops s)).1 := by
  induction ops generalizing s with
  | nil => exact Nat.le_refl _
  | cons p rest ih =>
    obtain ⟨t, op⟩ := p
    exact Nat.le_trans (viewCount_step_mono t op s v) (ih (ECStep t op s))

/-- C7: `GetCounts` is a pure read — as an operation it leaves the state
exactly as it was — it is total (no error output exists in its type), and
on a store with no records yet it returns the pair (0, 0). -/
theorem getCounts_pure (s : ECState) (v : VideoID) (now : Time) :
    ECStep now (.getCounts v) s = s ∧ GetCounts v ECState.empty = (0, 0) :=
  ⟨rfl, rfl⟩

/-- C3: N concurrent `RecordView` calls on one video with pairwise distinct
viewer ids, none sharing a dedup window, add exactly N to the video's view
count.  Per the spec's per-key linearizability, the concurrent execution is
observationally some sequential order of the calls; `calls` here is that
order, arbitrary, and the result holds for every order. -/
theorem concurrent_views_linearized (v : VideoID) (calls : List (ViewerID × Time))
    (s : ECState)
    (hU : (calls.map Prod.fst).Nodup)
    (hW : (calls.map (fun p => windowKey p.2)).Nodup)
    (hfresh : ∀ p ∈ calls, s.marker v p.1 (windowKey p.2) = false) :
    (runViews v calls s).viewCount v = s.viewCount v + calls.length := by
  induction calls generalizing s with
  | nil => simp [runViews]
  | cons p rest ih =>
    obtain ⟨u, t⟩ := p
    have hm : s.marker v u (windowKey t) = false := hfresh (u, t) (by simp)
    have hstep : (RecordView t v u s).1.viewCount v = s.viewCount v + 1 := by
      simp [RecordView, hm]
    have hU2 : (u :: rest.map Prod.fst).Nodup := by simpa using hU
    have hW2 : (windowKey t :: rest.map (fun p => windowKey p.2)).Nodup := by
      simpa using hW
    have hmark : ∀ p ∈ rest,
        (RecordView t v u s).1.marker v p.1 (windowKey p.2) = false := by
      intro p hp
      have hne : p.1 ≠ u := fun hc =>
        (List.nodup_cons.mp hU2).1 (List.mem_map.mpr ⟨p, hp, hc⟩)
      simp [RecordView, hm, hne]
      exact hfresh p (List.mem_cons_of_mem _ hp)
    have ihr := ih (RecordView t v u s).1
      (by simpa using (List.nodup_cons.mp hU2).2)
      (by simpa using (List.nodup_cons.mp hW2).2)
      hmark
    calc (runViews v ((u, t) :: rest) s).viewCount v
        = (runViews v rest (RecordView t v u s).1).viewCount v := rfl
      _ = (RecordView t v u s).1.viewCount v + rest.length := ihr
      _ = s.viewCount v + 1 + rest.length := by rw [hstep]
      _ = s.viewCount v + ((u, t) :: rest).length := by
          simp [List.length_cons]
          omega

/-- Witness for C3: two distinct viewers in distinct windows take the empty
store's count for vid1 from 0 to 2. -/
theorem concurrent_views_linearized_witness :
    (runViews "vid1" [("a", 0), ("b", 2000)] ECState.empty).viewCount "vid1"
      = ECState.empty.viewCount "vid1" + 2 :=
  concurrent_views_linearized "vid1" [("a", 0), ("b", 2000)] ECState.empty
    (by decide) (by decide) (by decide)

end CupStreaming
